import Mathlib

/-!
Shallow embedding of the core computation of `src/sim_app.py` (Sharpe
Single Index Model portfolio optimizer).  Machine floats are modelled by
exact rationals; pandas/numpy reductions (mean, sample variance, OLS line
fit, column arithmetic, filtering, sorting) are modelled by the
corresponding exact list operations.  Division is Lean's total division
on ℚ (`x / 0 = 0`); every theorem that depends on a division carries the
corresponding nonzero hypothesis, matching the points where the Python
code would produce `inf`/`nan` instead.
-/

namespace SIM

/-- One per-security record, as built in the `records.append({...})` call of
`sim_app.py`: `Alpha` is the CAPM excess alpha `α_exc`, `Beta` the OLS slope,
`Resid_Var` the annualized residual variance, `Exp_Ret` the annualized mean
return. -/
structure Sec where
  Stock : String
  Alpha : ℚ
  Beta : ℚ
  Resid_Var : ℚ
  Exp_Ret : ℚ
deriving DecidableEq, Repr

/-- `prices.pct_change().dropna()` for a single column: periodic fractional
change `(p_t - p_(t-1)) / p_(t-1)`, the undefined first row dropped. -/
def pct_change (ps : List ℚ) : List ℚ :=
  (ps.zip ps.tail).map (fun p => (p.2 - p.1) / p.1)

/-- Mean of a series (`Series.mean()`). -/
def meanQ (xs : List ℚ) : ℚ := xs.sum / (xs.length : ℚ)

/-- Sample variance with one delta degree of freedom (`Series.var()`,
pandas default `ddof=1`). -/
def sampleVar (xs : List ℚ) : ℚ :=
  (xs.map (fun a => (a - meanQ xs) ^ 2)).sum / ((xs.length : ℚ) - 1)

/-- Slope of the degree-1 least-squares fit, `np.polyfit(rm, Ri, 1)[0]`,
via the OLS normal equations `β = Σ(x-x̄)(y-ȳ) / Σ(x-x̄)²`.  When the
regressor has zero variance the denominator is 0 and this model returns 0
(total division), whereas `np.polyfit` returns a finite minimum-norm
least-squares solution with a `RankWarning`; in both cases a finite value
is produced and no error is raised. -/
def slope (x y : List ℚ) : ℚ :=
  ((x.zip y).map (fun p => (p.1 - meanQ x) * (p.2 - meanQ y))).sum /
    ((x.map (fun a => (a - meanQ x) ^ 2)).sum)

/-- Intercept of the degree-1 least-squares fit, `np.polyfit(rm, Ri, 1)[1]`:
`α = ȳ - β·x̄`. -/
def intercept (x y : List ℚ) : ℚ := meanQ y - slope x y * meanQ x

/-- Regression residual series `ε = Ri - (α + β · rm)`. -/
def residSeries (rm Ri : List ℚ) : List ℚ :=
  (rm.zip Ri).map (fun p => p.2 - (intercept rm Ri + slope rm Ri * p.1))

/-- `risk_free_rate = 0.04` from `sim_app.py`. -/
def risk_free_rate : ℚ := 4 / 100

/-- The per-security loop body of step 5 of `sim_app.py`: fit the
single-index model, annualize by 252, and form the CAPM excess alpha
`α_exc = ann_ret - (risk_free_rate + β·(ann_m - risk_free_rate))`. -/
def fitRecord (rm Ri : List ℚ) (sym : String) : Sec :=
  let β := slope rm Ri
  let var_e := sampleVar (residSeries rm Ri)
  let ann_ret := meanQ Ri * 252
  let ann_vare := var_e * 252
  let ann_m := meanQ rm * 252
  let α_exc := ann_ret - (risk_free_rate + β * (ann_m - risk_free_rate))
  ⟨sym, α_exc, β, ann_vare, ann_ret⟩

/-- Column `df["Ci"] = df["Alpha"] / df["Resid_Var"]`. -/
def Ci (c : Sec) : ℚ := c.Alpha / c.Resid_Var

/-- Column `df["Beta2_over_Var"] = df["Beta"]**2 / df["Resid_Var"]`. -/
def Beta2_over_Var (c : Sec) : ℚ := c.Beta ^ 2 / c.Resid_Var

/-- Column `df["Aβ_over_Var"] = df["Alpha"] * df["Beta"] / df["Resid_Var"]`. -/
def ABeta_over_Var (c : Sec) : ℚ := c.Alpha * c.Beta / c.Resid_Var

/-- `C_star = df["Aβ_over_Var"].sum() / (1 + df["Beta2_over_Var"].sum())`:
the cutoff rate computed from sums over the whole candidate frame. -/
def C_star (df : List Sec) : ℚ :=
  (df.map ABeta_over_Var).sum / (1 + (df.map Beta2_over_Var).sum)

/-- `sel = df[df["Ci"] > C_star]`: the rows whose `Ci` strictly exceeds the
cutoff. -/
def sel (df : List Sec) : List Sec :=
  df.filter (fun c => decide (C_star df < Ci c))

/-- Column `sel["z"] = (sel["Alpha"] / sel["Resid_Var"]) * (sel["Beta"] / C_star)`. -/
def z (df : List Sec) (c : Sec) : ℚ :=
  (c.Alpha / c.Resid_Var) * (c.Beta / C_star df)

/-- `sel["z"].sum()`. -/
def zsum (df : List Sec) : ℚ := ((sel df).map (z df)).sum

/-- Column `sel["Weight"] = sel["z"] / sel["z"].sum()`. -/
def Weight (df : List Sec) (c : Sec) : ℚ := z df c / zsum df

/-- The `(Stock, Weight)` table carried by the `sel` frame. -/
def weights (df : List Sec) : List (String × ℚ) :=
  (sel df).map (fun c => (c.Stock, Weight df c))

/-- `top5 = sel["Weight"].sort_values(ascending=False).head(5)`. -/
def top5 (df : List Sec) : List (String × ℚ) :=
  ((weights df).mergeSort (fun p q => decide (q.2 ≤ p.2))).take 5

/-- The candidates ranked by `Ci` descending (the spec's ranking step;
the code itself never materializes this order because `C_star` sums over
the whole frame). -/
def rankByCi (df : List Sec) : List Sec :=
  df.mergeSort (fun p q => decide (Ci q ≤ Ci p))

/-- The spec's cumulative cutoff `C*_k` over the top-`k` ranked candidates:
`C*_k = (Σ_(i≤k) α_i·β_i/v_i) / (1 + Σ_(i≤k) β_i²/v_i)`. -/
def C_star_k (df : List Sec) (k : Nat) : ℚ :=
  (((rankByCi df).take k).map ABeta_over_Var).sum /
    (1 + (((rankByCi df).take k).map Beta2_over_Var).sum)

/-- Unnormalized attractiveness score `α·β/v` of a record; `z` equals this
divided by `C_star`. -/
def score (c : Sec) : ℚ := c.Alpha * c.Beta / c.Resid_Var

/-- Summing a pointwise division by a common denominator equals dividing the
sum (pandas `sel["z"].sum()` versus the factored form). -/
lemma sum_map_div {α : Type} (l : List α) (f : α → ℚ) (d : ℚ) :
    (l.map (fun x => f x / d)).sum = (l.map f).sum / d := by
  induction l with
  | nil => simp
  | cons a t ih => simp [ih, add_div]

/-- The z column factors through the score: `z = (α/v)·(β/C*) = (α·β/v)/C*`. -/
lemma z_eq_score_div (df : List Sec) (c : Sec) :
    z df c = score c / C_star df := by
  simp only [z, score]
  rw [div_mul_div_comm, div_div]

/-- `zsum` is the selected scores' sum divided by the cutoff. -/
lemma zsum_eq_scoresum_div (df : List Sec) :
    zsum df = ((sel df).map score).sum / C_star df := by
  have hfun : z df = fun d => score d / C_star df := funext (z_eq_score_div df)
  rw [zsum, hfun, sum_map_div]

/-- Cancelling a common nonzero divisor out of a quotient of quotients. -/
lemma div_div_div_same (a b C : ℚ) (hC : C ≠ 0) (hb : b ≠ 0) :
    (a / C) / (b / C) = a / b := by
  field_simp

/-- When the cutoff and the selected scores' sum are nonzero, the weight of a
record reduces to its score over the selected scores' sum. -/
lemma Weight_eq_score_div (df : List Sec) (c : Sec) (hC : C_star df ≠ 0)
    (hs : ((sel df).map score).sum ≠ 0) :
    Weight df c = score c / ((sel df).map score).sum := by
  rw [Weight, zsum_eq_scoresum_div, z_eq_score_div, div_div_div_same _ _ _ hC hs]

/-- C1: the cutoff rate `C_star` of the code equals the spec's cumulative
cutoff `C*_k` taken over the ENTIRE ranked candidate set (`k` = number of
candidates), i.e. it is computed from full-set cumulative sums, not an
iteratively truncated top-k set. -/
theorem C1_cutoff_full_set (df : List Sec) (_hv : ∀ c ∈ df, c.Resid_Var ≠ 0) :
    C_star df = C_star_k df df.length := by
  have hp : List.Perm (rankByCi df) df := List.mergeSort_perm df _
  have hlen : (rankByCi df).length = df.length := hp.length_eq
  rw [C_star_k, ← hlen, List.take_length, C_star,
    (hp.map ABeta_over_Var).sum_eq, (hp.map Beta2_over_Var).sum_eq]

/-- Witness for C1 at a concrete two-candidate set. -/
theorem C1_cutoff_full_set_witness :
    C_star [⟨"A", 2, 1, 1, 0⟩, ⟨"B", 1, -1, 1, 0⟩] =
      C_star_k [⟨"A", 2, 1, 1, 0⟩, ⟨"B", 1, -1, 1, 0⟩] 2 :=
  C1_cutoff_full_set [⟨"A", 2, 1, 1, 0⟩, ⟨"B", 1, -1, 1, 0⟩] (by
    intro c hc
    simp only [List.mem_cons, List.not_mem_nil, or_false] at hc
    rcases hc with h | h <;> subst h <;> norm_num)

/-- C2: a candidate row is kept by the selection filter iff its `Ci` strictly
exceeds `C_star`; in particular a candidate with `Ci` exactly equal to
`C_star` is excluded. -/
theorem C2_strict_selection (df : List Sec) (c : Sec) (hc : c ∈ df) :
    (c ∈ sel df ↔ C_star df < Ci c) ∧ (Ci c = C_star df → c ∉ sel df) := by
  constructor
  · simp [sel, List.mem_filter, hc]
  · intro heq
    simp [sel, List.mem_filter, heq]

/-- Witness for C2: the first record of a concrete frame. -/
theorem C2_strict_selection_witness :
    (⟨"A", 2, 1, 1, 0⟩ ∈ sel [⟨"A", 2, 1, 1, 0⟩, ⟨"B", 1, -1, 1, 0⟩] ↔
      C_star [⟨"A", 2, 1, 1, 0⟩, ⟨"B", 1, -1, 1, 0⟩] < Ci ⟨"A", 2, 1, 1, 0⟩) ∧
    (Ci ⟨"A", 2, 1, 1, 0⟩ = C_star [⟨"A", 2, 1, 1, 0⟩, ⟨"B", 1, -1, 1, 0⟩] →
      ⟨"A", 2, 1, 1, 0⟩ ∉ sel [⟨"A", 2, 1, 1, 0⟩, ⟨"B", 1, -1, 1, 0⟩]) :=
  C2_strict_selection [⟨"A", 2, 1, 1, 0⟩, ⟨"B", 1, -1, 1, 0⟩] ⟨"A", 2, 1, 1, 0⟩
    (by simp)

/-- C3: for a non-empty selection whose z column has nonzero sum, the final
weights sum to exactly 1 (hence within the claimed 1e-9 relative
tolerance). -/
theorem C3_weights_sum_to_one (df : List Sec) (_hne : sel df ≠ [])
    (hz : zsum df ≠ 0) :
    ((weights df).map Prod.snd).sum = 1 ∧
      |((weights df).map Prod.snd).sum - 1| ≤ 1 / 1000000000 := by
  have hmap : (weights df).map Prod.snd = (sel df).map (fun c => z df c / zsum df) := by
    simp [weights, List.map_map, Weight, Function.comp]
  have hsum : ((weights df).map Prod.snd).sum = 1 := by
    rw [hmap, sum_map_div, ← zsum, div_self hz]
  refine ⟨hsum, ?_⟩
  rw [hsum]
  norm_num

/-- Witness for C3 at a concrete two-candidate frame whose two rows are both
selected. -/
theorem C3_weights_sum_to_one_witness :
    ((weights [⟨"A", 2, 1, 1, 0⟩, ⟨"B", 3, 1/10, 1, 0⟩]).map Prod.snd).sum = 1 ∧
      |((weights [⟨"A", 2, 1, 1, 0⟩, ⟨"B", 3, 1/10, 1, 0⟩]).map Prod.snd).sum - 1| ≤
        1 / 1000000000 :=
  C3_weights_sum_to_one [⟨"A", 2, 1, 1, 0⟩, ⟨"B", 3, 1/10, 1, 0⟩]
    (by
      have h : sel [⟨"A", 2, 1, 1, 0⟩, ⟨"B", 3, 1/10, 1, 0⟩] =
          [⟨"A", 2, 1, 1, 0⟩, ⟨"B", 3, 1/10, 1, 0⟩] := by
        norm_num [sel, C_star, Ci, ABeta_over_Var, Beta2_over_Var, List.filter]
      rw [h]
      exact List.cons_ne_nil _ _)
    (by norm_num [zsum, sel, z, C_star, Ci, ABeta_over_Var, Beta2_over_Var,
      List.filter])

/-- C7: the `Alpha` field produced by the estimator is the CAPM excess alpha
`E[R_i] − (r_f + β·(E[R_m] − r_f))` with `E[R_i]`, `E[R_m]` the annualized
mean periodic returns (mean · 252) and `r_f` the supplied risk-free rate;
the record's `Exp_Ret` and `Beta` fields are exactly those ingredients. -/
theorem C7_capm_excess_alpha (rm Ri : List ℚ) (sym : String) :
    (fitRecord rm Ri sym).Alpha =
      meanQ Ri * 252 -
        (risk_free_rate + slope rm Ri * (meanQ rm * 252 - risk_free_rate)) ∧
    (fitRecord rm Ri sym).Exp_Ret = meanQ Ri * 252 ∧
    (fitRecord rm Ri sym).Beta = slope rm Ri := by
  refine ⟨rfl, rfl, rfl⟩

/-- C10: the cutoff cancels out of the normalized weights: whenever `C_star`
and the selected scores' sum are nonzero, each selected record's weight is
its `α·β/v` score divided by the selected scores' sum — independent of
`C_star`. -/
theorem C10_cutoff_cancels (df : List Sec) (c : Sec) (_hc : c ∈ sel df)
    (hC : C_star df ≠ 0) (hs : ((sel df).map score).sum ≠ 0) :
    Weight df c = score c / ((sel df).map score).sum :=
  Weight_eq_score_div df c hC hs

/-- C4 fails as stated: with a selected candidate of negative beta the code
emits weights outside [0, 1].  On the frame A = (α 2, β 1, v 1),
B = (α 1, β −1, v 1) the cutoff is 1/3, both rows are selected, and the
weights are 2 (> 1) for A and −1 (< 0) for B. -/
theorem C4_counterexample :
    ("A", (2 : ℚ)) ∈ weights [⟨"A", 2, 1, 1, 0⟩, ⟨"B", 1, -1, 1, 0⟩] ∧
    ("B", (-1 : ℚ)) ∈ weights [⟨"A", 2, 1, 1, 0⟩, ⟨"B", 1, -1, 1, 0⟩] ∧
    ¬((2 : ℚ) ≤ 1) ∧ ¬((0 : ℚ) ≤ -1) := by
  norm_num [weights, sel, Weight, z, zsum, C_star, Ci, ABeta_over_Var,
    Beta2_over_Var, List.filter]

/-- C4 amended: every final weight lies in [0, 1] provided every selected
row's unnormalized score `z` is nonnegative and the scores' sum is positive
(as happens when all selected alphas and betas share the sign of the
cutoff); the unrestricted claim fails for selections containing a
negative-beta row. -/
theorem C4_amended_weights_in_unit_interval (df : List Sec)
    (hz : ∀ c ∈ sel df, 0 ≤ z df c) (hpos : 0 < zsum df) :
    ∀ c ∈ sel df, 0 ≤ Weight df c ∧ Weight df c ≤ 1 := by
  intro c hc
  refine ⟨div_nonneg (hz c hc) hpos.le, ?_⟩
  rw [Weight, div_le_one hpos]
  refine List.single_le_sum ?_ _ (List.mem_map_of_mem (z df) hc)
  intro x hx
  obtain ⟨d, hd, rfl⟩ := List.mem_map.mp hx
  exact hz d hd

/-- Witness for the amended C4 at a concrete all-positive frame. -/
theorem C4_amended_weights_in_unit_interval_witness :
    0 ≤ Weight [⟨"A", 2, 1, 1, 0⟩, ⟨"B", 3, 1/10, 1, 0⟩] ⟨"A", 2, 1, 1, 0⟩ ∧
      Weight [⟨"A", 2, 1, 1, 0⟩, ⟨"B", 3, 1/10, 1, 0⟩] ⟨"A", 2, 1, 1, 0⟩ ≤ 1 := by
  have h : sel [⟨"A", 2, 1, 1, 0⟩, ⟨"B", 3, 1/10, 1, 0⟩] =
      [⟨"A", 2, 1, 1, 0⟩, ⟨"B", 3, 1/10, 1, 0⟩] := by
    norm_num [sel, C_star, Ci, ABeta_over_Var, Beta2_over_Var, List.filter]
  refine C4_amended_weights_in_unit_interval _ ?_ ?_ _ ?_
  · rw [h]
    intro c hc
    rcases List.mem_cons.mp hc with rfl | hc
    · norm_num [z, C_star, Ci, ABeta_over_Var, Beta2_over_Var]
    rcases List.mem_cons.mp hc with rfl | hc
    · norm_num [z, C_star, Ci, ABeta_over_Var, Beta2_over_Var]
    · simp at hc
  · norm_num [zsum, sel, z, C_star, Ci, ABeta_over_Var, Beta2_over_Var,
      List.filter]
  · rw [h]
    exact List.mem_cons_self _ _

/-- C5 fails on the code: the weight division is performed unconditionally.
On the frame A = (α 2, β 1, v 1), B = (α 2, β −1, v 1), C = (α −1, β 1, v 1)
the cutoff is −1/4, rows A and B are selected, their z scores are −8 and 8,
so `sel["z"].sum()` is 0 — the code divides by it anyway (pandas yields
±inf, this total-division model yields 0) and no `ZeroAllocation` failure is
ever signaled; no such signal exists anywhere in the code. -/
theorem C5_division_by_zero_allocation :
    sel [⟨"A", 2, 1, 1, 0⟩, ⟨"B", 2, -1, 1, 0⟩, ⟨"C", -1, 1, 1, 0⟩] =
      [⟨"A", 2, 1, 1, 0⟩, ⟨"B", 2, -1, 1, 0⟩] ∧
    zsum [⟨"A", 2, 1, 1, 0⟩, ⟨"B", 2, -1, 1, 0⟩, ⟨"C", -1, 1, 1, 0⟩] = 0 ∧
    weights [⟨"A", 2, 1, 1, 0⟩, ⟨"B", 2, -1, 1, 0⟩, ⟨"C", -1, 1, 1, 0⟩] =
      [("A", 0), ("B", 0)] := by
  norm_num [weights, sel, Weight, z, zsum, C_star, Ci, ABeta_over_Var,
    Beta2_over_Var, List.filter]

/-- C6 fails on the code: a zero-variance benchmark window (constant
prices, hence all-zero returns with zero sample variance) flows straight
through the estimator, which still produces a finite record — `np.polyfit`
returns a minimum-norm least-squares fit with only a `RankWarning` (this
model's total division returns slope 0) — and no `DegenerateRegression`
failure is ever signaled; no such signal exists anywhere in the code. -/
theorem C6_degenerate_benchmark_not_rejected :
    pct_change [100, 100, 100, 100] = [0, 0, 0] ∧
    sampleVar [0, 0, 0] = 0 ∧
    fitRecord [0, 0, 0] [1/100, 2/100, 3/100] "A" =
      ⟨"A", 5, 0, 63/2500, 126/25⟩ := by
  refine ⟨by norm_num [pct_change], by norm_num [sampleVar, meanQ], ?_⟩
  norm_num [fitRecord, slope, intercept, residSeries, sampleVar, meanQ,
    risk_free_rate]

/-- C8 fails as stated: on the frame A = (α 2, β 1, v 1),
B = (α 1, β −1, v 1), raising A's excess alpha from 2 to 3 (A qualifying
both times) LOWERS A's weight from 2 to 3/2, because the co-selected
negative-beta row B contributes a negative score to the normalizer. -/
theorem C8_counterexample :
    (2 : ℚ) < 3 ∧
    C_star [⟨"A", 2, 1, 1, 0⟩, ⟨"B", 1, -1, 1, 0⟩] < Ci ⟨"A", 2, 1, 1, 0⟩ ∧
    C_star [⟨"A", 3, 1, 1, 0⟩, ⟨"B", 1, -1, 1, 0⟩] < Ci ⟨"A", 3, 1, 1, 0⟩ ∧
    Weight [⟨"A", 2, 1, 1, 0⟩, ⟨"B", 1, -1, 1, 0⟩] ⟨"A", 2, 1, 1, 0⟩ = 2 ∧
    Weight [⟨"A", 3, 1, 1, 0⟩, ⟨"B", 1, -1, 1, 0⟩] ⟨"A", 3, 1, 1, 0⟩ = 3/2 ∧
    (3/2 : ℚ) < 2 := by
  norm_num [Weight, z, zsum, sel, C_star, Ci, ABeta_over_Var, Beta2_over_Var,
    List.filter]

/-- C8 amended: raising a qualifying candidate's excess alpha (its beta
nonnegative, residual variance positive) never decreases its weight,
PROVIDED it stays selected, the other selected rows are unchanged, their
scores' sum is nonnegative, the cutoff is nonzero in both frames, and the
selected scores' total is positive.  Without the nonnegativity proviso the
claim is false (negative-beta co-selections reverse the monotonicity). -/
theorem C8_amended_monotonicity (others : List Sec) (c c' : Sec)
    (hb : c'.Beta = c.Beta) (hv : c'.Resid_Var = c.Resid_Var)
    (ha : c.Alpha ≤ c'.Alpha) (hbpos : 0 ≤ c.Beta) (hvpos : 0 < c.Resid_Var)
    (hqual : C_star (c :: others) < Ci c)
    (hqual' : C_star (c' :: others) < Ci c')
    (hsame : others.filter (fun d => decide (C_star (c :: others) < Ci d)) =
      others.filter (fun d => decide (C_star (c' :: others) < Ci d)))
    (hC : C_star (c :: others) ≠ 0) (hC' : C_star (c' :: others) ≠ 0)
    (hS : 0 ≤ ((others.filter
      (fun d => decide (C_star (c :: others) < Ci d))).map score).sum)
    (hpos : 0 < score c + ((others.filter
      (fun d => decide (C_star (c :: others) < Ci d))).map score).sum) :
    Weight (c :: others) c ≤ Weight (c' :: others) c' := by
  set S := ((others.filter
    (fun d => decide (C_star (c :: others) < Ci d))).map score).sum with hSdef
  have hsel1 : sel (c :: others) =
      c :: others.filter (fun d => decide (C_star (c :: others) < Ci d)) := by
    simp [sel, List.filter_cons, hqual]
  have hsel2 : sel (c' :: others) =
      c' :: others.filter (fun d => decide (C_star (c' :: others) < Ci d)) := by
    simp [sel, List.filter_cons, hqual']
  have hsum1 : ((sel (c :: others)).map score).sum = score c + S := by
    rw [hsel1]; simp [hSdef]
  have hsum2 : ((sel (c' :: others)).map score).sum = score c' + S := by
    rw [hsel2, ← hsame]; simp [hSdef]
  have hsc : score c ≤ score c' := by
    rw [score, score, hb, hv]
    exact (div_le_div_iff_of_pos_right hvpos).2
      (mul_le_mul_of_nonneg_right ha hbpos)
  have hpos' : 0 < score c' + S := lt_of_lt_of_le hpos (by linarith)
  have hne1 : ((sel (c :: others)).map score).sum ≠ 0 := by
    rw [hsum1]; exact hpos.ne'
  have hne2 : ((sel (c' :: others)).map score).sum ≠ 0 := by
    rw [hsum2]; exact hpos'.ne'
  rw [Weight_eq_score_div _ _ hC hne1, Weight_eq_score_div _ _ hC' hne2,
    hsum1, hsum2, div_le_div_iff₀ hpos hpos']
  nlinarith [mul_le_mul_of_nonneg_right hsc hS]

/-- Witness for the amended C8: raising A's alpha from 2 to 3 next to an
all-positive co-selected row raises A's weight. -/
theorem C8_amended_monotonicity_witness :
    Weight [⟨"A", 2, 1, 1, 0⟩, ⟨"B", 3, 1/10, 1, 0⟩] ⟨"A", 2, 1, 1, 0⟩ ≤
      Weight [⟨"A", 3, 1, 1, 0⟩, ⟨"B", 3, 1/10, 1, 0⟩] ⟨"A", 3, 1, 1, 0⟩ :=
  C8_amended_monotonicity [⟨"B", 3, 1/10, 1, 0⟩] ⟨"A", 2, 1, 1, 0⟩
    ⟨"A", 3, 1, 1, 0⟩ rfl rfl (by norm_num) (by norm_num) (by norm_num)
    (by norm_num [C_star, Ci, ABeta_over_Var, Beta2_over_Var])
    (by norm_num [C_star, Ci, ABeta_over_Var, Beta2_over_Var])
    (by norm_num [C_star, Ci, ABeta_over_Var, Beta2_over_Var, List.filter])
    (by norm_num [C_star, ABeta_over_Var, Beta2_over_Var])
    (by norm_num [C_star, ABeta_over_Var, Beta2_over_Var])
    (by norm_num [score, C_star, Ci, ABeta_over_Var, Beta2_over_Var,
      List.filter])
    (by norm_num [score, C_star, Ci, ABeta_over_Var, Beta2_over_Var,
      List.filter])

/-- C9: the displayed table is sorted by weight descending, has at most 5
rows, and every retained (symbol, weight) pair appears unchanged in the
full weight table the selection produced. -/
theorem C9_top5_presentation (df : List Sec) :
    (top5 df).length ≤ 5 ∧
    List.Sorted (fun p q : String × ℚ => q.2 ≤ p.2) (top5 df) ∧
    ∀ p ∈ top5 df, p ∈ weights df := by
  refine ⟨?_, ?_, ?_⟩
  · rw [top5, List.length_take]
    exact min_le_left _ _
  · have hs : (List.mergeSort (weights df)
        (fun p q => decide (q.2 ≤ p.2))).Pairwise
        (fun p q : String × ℚ => decide (q.2 ≤ p.2) = true) :=
      List.sorted_mergeSort
        (by
          intro a b c h1 h2
          simp only [decide_eq_true_eq] at h1 h2 ⊢
          exact le_trans h2 h1)
        (by
          intro a b
          simpa using le_total b.2 a.2)
        (weights df)
    have ht : (top5 df).Pairwise
        (fun p q : String × ℚ => decide (q.2 ≤ p.2) = true) :=
      hs.sublist (List.take_sublist _ _)
    exact ht.imp (fun h => by simpa using h)
  · intro p hp
    rw [top5] at hp
    exact List.mem_mergeSort.mp (List.take_subset _ _ hp)
theorem C10_cutoff_cancels_witness :
    Weight [⟨"A", 2, 1, 1, 0⟩, ⟨"B", 3, 1/10, 1, 0⟩] ⟨"A", 2, 1, 1, 0⟩ =
      score ⟨"A", 2, 1, 1, 0⟩ /
        ((sel [⟨"A", 2, 1, 1, 0⟩, ⟨"B", 3, 1/10, 1, 0⟩]).map score).sum :=
  C10_cutoff_cancels [⟨"A", 2, 1, 1, 0⟩, ⟨"B", 3, 1/10, 1, 0⟩] ⟨"A", 2, 1, 1, 0⟩
    (by norm_num [sel, C_star, Ci, ABeta_over_Var, Beta2_over_Var, List.filter])
    (by norm_num [C_star, ABeta_over_Var, Beta2_over_Var])
    (by norm_num [sel, score, C_star, Ci, ABeta_over_Var, Beta2_over_Var,
      List.filter])

end SIM
